import Mathlib

/-! Verification development for the label-verification backend (`server.js`,
function layer `normalize` / `performVerification`).

The JavaScript source is shallowly embedded: strings are Lean `String`s
(lists of characters), the form input is a structure whose fields model the
multipart form fields (each possibly absent, i.e. `undefined`), and the two
regular expressions the source builds at run time are given executable
semantics by a small token matcher covering exactly the constructs the
constructed patterns contain (literal characters, `.` wildcard, `\s*`, `\b`,
and top-level alternation `|`).  Character classes are modelled over ASCII,
which is the character range the checks are concerned with.
-/

set_option maxRecDepth 100000

namespace TTB

/-- JS whitespace as used by `\s`, `String.prototype.trim` and the regex
engine, restricted to the ASCII range: space, tab, line feed, vertical tab,
form feed, carriage return. -/
def isWs (c : Char) : Bool :=
  c = ' ' || c = '\t' || c = '\n' || c = '\x0b' || c = '\x0c' || c = '\r'

/-- The punctuation set stripped by `normalize`:
the regex character class in `text.replace(/[.,\/#!$%\^&\*;:{}=\-_`~()]/g,"")`. -/
def isPunct (c : Char) : Bool :=
  c = '.' || c = ',' || c = '/' || c = '#' || c = '!' || c = '$' || c = '%' ||
  c = '^' || c = '&' || c = '*' || c = ';' || c = ':' || c = '\x7b' ||
  c = '\x7d' || c = '=' || c = '-' || c = '_' || c = '\x60' || c = '~' ||
  c = '(' || c = ')'

/-- One step of `.replace(/\s{2,}/g, " ")`: every maximal run of two or more
whitespace characters becomes a single space; a lone whitespace character is
kept as it is. -/
def collapseWs : List Char → List Char
  | [] => []
  | [c] => [c]
  | c :: c2 :: rest2 =>
    if isWs c then
      if isWs c2 then
        if rest2.head?.any isWs then collapseWs (c2 :: rest2)
        else ' ' :: collapseWs rest2
      else c :: collapseWs (c2 :: rest2)
    else c :: collapseWs (c2 :: rest2)

/-- Remove the trailing whitespace run (the right half of `trim()`). -/
def trimRight : List Char → List Char
  | [] => []
  | c :: rest =>
    match trimRight rest with
    | [] => if isWs c then [] else [c]
    | r => c :: r

/-- JS `String.prototype.trim`: drop leading and trailing whitespace. -/
def trimL (l : List Char) : List Char :=
  trimRight (l.dropWhile isWs)

/-- The `trim()` operation on strings. -/
def trimS (s : String) : String :=
  ⟨trimL s.data⟩

/-- The normalization chain of `normalize` after the falsy guard:
`text.toLowerCase().replace(punct, "").replace(/\s{2,}/g, " ").trim()`. -/
def normStr (s : String) : String :=
  ⟨trimL (collapseWs ((s.data.map Char.toLower).filter (fun c => !isPunct c)))⟩

/-- The function `normalize(text)` from the source.  The argument is an
`Option String` so that a JavaScript `undefined` argument (modelled `none`)
is covered: `if (!text) return ''` maps both `undefined` and the empty
string to the empty string. -/
def normalize (text : Option String) : String :=
  match text with
  | none => ""
  | some s => if s = "" then "" else normStr s

example : normalize (some "  Old,  TOM   (Distillery)! ") = "old tom distillery" := by decide

example : normalize (some "NET CONTENTS: 750 ML") = "net contents 750 ml" := by decide

/-- JS `String.prototype.includes`: `strIncludes hay needle` is true when
`needle` occurs in `hay` as a contiguous substring. -/
def containsSub (pat : List Char) : List Char → Bool
  | [] => pat.isEmpty
  | c :: rest => pat.isPrefixOf (c :: rest) || containsSub pat rest

def strIncludes (hay needle : String) : Bool :=
  containsSub needle.data hay.data

/-- JS `String.prototype.replace(pat, rep)` with a plain-string pattern:
replace the first occurrence of `pat`, if any. -/
def replaceFirstL (pat rep : List Char) : List Char → List Char
  | [] => if pat.isEmpty then rep else []
  | c :: rest =>
    if pat.isPrefixOf (c :: rest) then rep ++ List.drop pat.length (c :: rest)
    else c :: replaceFirstL pat rep rest

def jsReplaceFirst (s pat rep : String) : String :=
  ⟨replaceFirstL pat.data rep.data s.data⟩

/-! ## A tiny regex engine

The source builds two regular expressions at run time and only ever calls
`.test` on them.  Both constructed pattern strings are made of literal
characters, the `.` wildcard, the escapes `\b` and `\s*`, and top-level
alternation `|` (the patterns contain no groups, so every `|` is
top-level).  The engine below gives executable semantics to exactly this
fragment, with the `i` flag (ASCII case folding) always on, as in the
source. -/

/-- JS `\w` (ASCII word character), used by the `\b` assertion. -/
def isWordChar (c : Char) : Bool :=
  c.isAlphanum || c = '_'

/-- One token of a constructed pattern. -/
inductive RTok : Type
  | lit (c : Char)
  | anyChar
  | wsStar
  | bdry
deriving Repr, DecidableEq

/-- Tokenize one alternative of a constructed pattern: `\b` and `\s*` are
the only escapes the source ever builds, `.` is the wildcard, any other
escaped character stands for itself, and everything else is literal. -/
def lexPat : List Char → List RTok
  | [] => []
  | '\\' :: 'b' :: rest => RTok.bdry :: lexPat rest
  | '\\' :: 's' :: '*' :: rest => RTok.wsStar :: lexPat rest
  | '\\' :: c :: rest => RTok.lit c :: lexPat rest
  | '.' :: rest => RTok.anyChar :: lexPat rest
  | c :: rest => RTok.lit c :: lexPat rest

/-- Split a pattern at every (top-level) `|`. -/
def splitOnBar : List Char → List (List Char)
  | [] => [[]]
  | '|' :: rest => [] :: splitOnBar rest
  | c :: rest =>
    match splitOnBar rest with
    | [] => [[c]]
    | a :: as => (c :: a) :: as

/-- The `\b` assertion between a previous character (`none` at the start of
the haystack) and a next character (`none` at its end). -/
def atBoundary (prev next : Option Char) : Bool :=
  (match prev with | some c => isWordChar c | none => false) !=
  (match next with | some c => isWordChar c | none => false)

/-- Case-insensitive comparison of a pattern character with a haystack
character (the `i` flag, ASCII folding). -/
def ciEq (p d : Char) : Bool :=
  p.toLower = d.toLower

/-- JS `.` (without the `s` flag) matches anything but a line terminator. -/
def matchesAny (d : Char) : Bool :=
  d != '\n' && d != '\r' && d != '\u2028' && d != '\u2029'

/-- Match a token list against a suffix of the haystack; `prev` is the
character just before the suffix (for `\b`).  `\s*` is existential: it may
consume any run of whitespace, as backtracking would.  The `fuel` argument
only makes the recursion structural; `toks.length + l.length + 1` steps
always suffice because every step shrinks `toks.length + l.length`. -/
def matchToks : Nat → Option Char → List RTok → List Char → Bool
  | 0, _, _, _ => false
  | _ + 1, _, [], _ => true
  | fuel + 1, prev, RTok.bdry :: ts, l =>
    atBoundary prev l.head? && matchToks fuel prev ts l
  | fuel + 1, _, RTok.lit c :: ts, d :: rest =>
    ciEq c d && matchToks fuel (some d) ts rest
  | _ + 1, _, RTok.lit _ :: _, [] => false
  | fuel + 1, _, RTok.anyChar :: ts, d :: rest =>
    matchesAny d && matchToks fuel (some d) ts rest
  | _ + 1, _, RTok.anyChar :: _, [] => false
  | fuel + 1, prev, RTok.wsStar :: ts, l =>
    matchToks fuel prev ts l ||
      (match l with
       | d :: rest => isWs d && matchToks fuel (some d) (RTok.wsStar :: ts) rest
       | [] => false)

/-- Semantics of `new RegExp(pattern, 'i').test(text)` for the constructed patterns:
some alternative matches at some position of the text. -/
def regexTest (pattern text : String) : Bool :=
  let chars := text.data
  (splitOnBar pattern.data).any (fun alt =>
    let toks := lexPat alt
    (List.range (chars.length + 1)).any (fun i =>
      matchToks (toks.length + chars.length + 1) ((chars.take i).getLast?)
        toks (chars.drop i)))

example : regexTest "\\b45\\s*%" "wine 45% alc" = true := by decide
example : regexTest "\\b45\\s*%" "wine 450% alc" = false := by decide
example : regexTest "\\b750\\s*m\\s*l|ml|milliliter|millilitres\\b"
    "only ml here" = true := by decide
example : regexTest "\\b750\\s*m\\s*l|ml|milliliter|millilitres\\b"
    "750 badunit" = false := by decide

/-! ## Data model -/

/-- One row of the report: `{ field, status, expected }`.  `status` and
`field` are the literal strings the source uses.  `expected` is `none` when
the source stores a JavaScript `undefined` there (rows 1 and 2 echo the raw
form field). -/
structure FieldCheck : Type where
  field : String
  status : String
  expected : Option String
deriving Repr, DecidableEq

/-- The object `{ overall_match, discrepancies }` returned by
`performVerification`. -/
structure VerificationReport : Type where
  overall_match : Bool
  discrepancies : List FieldCheck
deriving Repr, DecidableEq

/-- The `alcoholContent` form value: a multipart form delivers a string, the
test suite passes numbers, and the field may be absent (`undefined`).
Numbers are modelled as integers; only their decimal rendering is used. -/
inductive AbvValue : Type
  | absent
  | num (n : Int)
  | str (s : String)
deriving Repr, DecidableEq

/-- The `formInput` object: each field may be absent (`undefined`). -/
structure FormInput : Type where
  brandName : Option String
  productClass : Option String
  alcoholContent : AbvValue
  netContents : Option String
deriving Repr, DecidableEq

/-- JS truthiness default `formInput.alcoholContent || 0`: `undefined`, the
number `0` and the empty string are falsy. -/
def jsOrZero : AbvValue → AbvValue
  | AbvValue.absent => AbvValue.num 0
  | AbvValue.num n => if n = 0 then AbvValue.num 0 else AbvValue.num n
  | AbvValue.str s => if s = "" then AbvValue.num 0 else AbvValue.str s

/-- JS `String(v)` on a form value (`undefined` prints as "undefined"). -/
def jsString : AbvValue → String
  | AbvValue.absent => "undefined"
  | AbvValue.num n => toString n
  | AbvValue.str s => s

/-- Line 52: `const alcoholContent = String(formInput.alcoholContent || 0).trim()`. -/
def abvString (v : AbvValue) : String :=
  trimS (jsString (jsOrZero v))

/-! ## The four checks -/

/-- The shared shape of checks 1, 2 and 5:
`declared.length > 0 && normalizedText.includes(declared)`. -/
def substringPass (declared haystack : String) : Bool :=
  decide (0 < declared.length) && strIncludes haystack declared

/-- The status string each simple check ends up with. -/
def statusOf (pass : Bool) : String :=
  if pass then "Match" else "Not Found/Mismatch"

/-- The ABV check condition `alcoholContent !== '0' && abvRegex.test(extractedText)`.

The source regex is
`` `\b${A}(?:\.0)?\s*%\s*(?:alc\.|vol\.|by\s*vol\.)?|\b${A}(?:\.0)?\s*%` ``.
Its trailing `\s*(?:alc\.|vol\.|by\s*vol\.)?` can always match the empty
string, so the first alternative succeeds exactly when `\b${A}(?:\.0)?\s*%`
does, and the second alternative is subsumed by the first; `.test` is
therefore equivalent to testing `\b${A}\s*%` or `\b${A}\.0\s*%` (this
distribution also remains correct when `A` itself contains `|`).  `A` is
interpolated raw; the model reads it as pattern text through the same
tokenizer (so a `.` in `A` is a wildcard).  Strings `A` containing grouping
or quantifier metacharacters, which would make the JavaScript construction
throw a SyntaxError or change the pattern shape, are outside the model and
are read literally here. -/
def abvTest (alcoholContent extractedText : String) : Bool :=
  regexTest ("\\b" ++ alcoholContent ++ "\\s*%") extractedText ||
  regexTest ("\\b" ++ alcoholContent ++ "\\.0\\s*%") extractedText

def abvPass (alcoholContent extractedText : String) : Bool :=
  (alcoholContent != "0") && abvTest alcoholContent extractedText

/-- Leftmost match of `/(\d+\.?\d*)\s*([a-zA-Z]+)/` attempted at the head of
`l` (the start of some suffix of the declared value): greedy digits, an
optional dot with greedy digits after it, optional whitespace, then at
least one letter.  When the dot branch is taken and no letters follow, no
backtracking into the dotless reading can succeed (the next character is
the dot itself), so the whole position fails, exactly as in the
backtracking engine. -/
def tryNCParse (l : List Char) : Option (String × String) :=
  match l with
  | [] => none
  | c :: _ =>
    if c.isDigit then
      let r1 := l.takeWhile Char.isDigit
      let rest1 := l.dropWhile Char.isDigit
      match rest1 with
      | '.' :: rest2 =>
        let r2 := rest2.takeWhile Char.isDigit
        let rest3 := rest2.dropWhile Char.isDigit
        let u := (rest3.dropWhile isWs).takeWhile Char.isAlpha
        if u.isEmpty then none
        else some (⟨r1 ++ '.' :: r2⟩, ⟨u⟩)
      | _ =>
        let u := (rest1.dropWhile isWs).takeWhile Char.isAlpha
        if u.isEmpty then none
        else some (⟨r1⟩, ⟨u⟩)
    else none

/-- Line 93: `formInput.netContents.match(/(\d+\.?\d*)\s*([a-zA-Z]+)/i)`, the
leftmost position at which the pattern matches, yielding (volume, unit)
capture groups; `none` when the string has no match.  The `i` flag is
inert: the pattern has no cased literal. -/
def findNCParse : List Char → Option (String × String)
  | [] => none
  | c :: rest =>
    match tryNCParse (c :: rest) with
    | some r => some r
    | none => findNCParse rest

example : findNCParse "750 mL".data = some ("750", "mL") := by decide
example : findNCParse "750ML".data = some ("750", "ML") := by decide
example : findNCParse "750".data = none := by decide
example : findNCParse "x 12.5 fl oz".data = some ("12.5", "fl") := by decide
example : findNCParse "1.2.3ml".data = some ("2.3", "ml") := by decide

/-- Leftmost match of `/(\d+\.?\d*)/`: the first numeric substring (greedy
digits, optionally a dot and further greedy digits).  Used by the Tier-2
fallback on the normalized declared value. -/
def firstNum : List Char → Option String
  | [] => none
  | c :: rest =>
    if c.isDigit then
      let r1 := (c :: rest).takeWhile Char.isDigit
      match (c :: rest).dropWhile Char.isDigit with
      | '.' :: rest2 => some ⟨r1 ++ '.' :: rest2.takeWhile Char.isDigit⟩
      | _ => some ⟨r1⟩
    else firstNum rest

example : firstNum "abc 750 x".data = some "750" := by decide
example : firstNum "no digits".data = none := by decide

/-- Line 89: `netContents.length > 0` for the normalized declared net contents:
whether the Net Contents check is mandatory. -/
def netIsMandatory (ncRaw : String) : Bool :=
  decide (0 < (normalize (some ncRaw)).length)

/-- The Net Contents check (source lines 88-123).  Returns the status
string and whether this check sets `overallMatch = false`.

Tier 1: if the raw declared value parses as number-then-letters, normalize
the unit, splice it into the synonym alternation via the two `.replace`
calls, and test `` `\b${volume}\s*${unitPattern}\b` `` against the
normalized haystack (note that the source's alternation is not grouped, so
the spliced `|` are top-level).  Tier 2: otherwise, if the check is
mandatory, look for the first numeric substring of the normalized declared
value in the normalized haystack.  Otherwise the row is optional and
nothing fails. -/
def netContentsCheck (ncRaw normalizedText : String) : String × Bool :=
  let isMandatoryCheck := netIsMandatory ncRaw
  match findNCParse ncRaw.data with
  | some (volume, unitLetters) =>
    let unit := normalize (some unitLetters)
    let unitPat :=
      jsReplaceFirst (jsReplaceFirst unit "floz" "fl\\s*oz|floz")
        "ml" "m\\s*l|ml|milliliter|millilitres"
    if regexTest ("\\b" ++ volume ++ "\\s*" ++ unitPat ++ "\\b") normalizedText
    then ("Match", false)
    else ("Not Found/Mismatch", isMandatoryCheck)
  | none =>
    if isMandatoryCheck then
      match firstNum (normalize (some ncRaw)).data with
      | some v =>
        if strIncludes normalizedText v then ("Mismatch (Unit Missing)", true)
        else ("Not Found/Mismatch", true)
      | none => ("Not Found/Mismatch", true)
    else ("Not Found/Mismatch", false)

/-- The function `performVerification(extractedText, formInput)` (source lines 43-149).

The result is `none` exactly when `formInput.netContents` is absent: line
93 evaluates `formInput.netContents.match(...)` without the `|| ''` guard
used on line 51, so an `undefined` field raises a TypeError and no report
is produced. -/
def performVerification (extractedText : String) (formInput : FormInput) :
    Option VerificationReport :=
  match formInput.netContents with
  | none => none
  | some ncRaw =>
    let normalizedText := normalize (some extractedText)
    let brandName := normalize (some (formInput.brandName.getD ""))
    let productClass := normalize (some (formInput.productClass.getD ""))
    let alcoholContent := abvString formInput.alcoholContent
    let brandPass := substringPass brandName normalizedText
    let classPass := substringPass productClass normalizedText
    let abvOk := abvPass alcoholContent extractedText
    let net := netContentsCheck ncRaw normalizedText
    let warningPass := strIncludes normalizedText "government warning"
    some {
      overall_match := brandPass && classPass && abvOk && !net.2 && warningPass
      discrepancies := [
        { field := "Brand Name", status := statusOf brandPass,
          expected := formInput.brandName },
        { field := "Product Class/Type", status := statusOf classPass,
          expected := formInput.productClass },
        { field := "Alcohol Content", status := statusOf abvOk,
          expected := some (jsString formInput.alcoholContent ++ "% (within tolerance)") },
        { field := "Net Contents", status := net.1,
          expected := some (ncRaw ++ (if netIsMandatory ncRaw then "" else " (Optional)")) },
        { field := "Government Warning", status := statusOf warningPass,
          expected := some "Phrase \"GOVERNMENT WARNING\" present" } ] }

/-! Sanity checks mirroring the repository's test suite
(`verification.test.js`). -/

/-- The mock OCR text of the test suite. -/
def mockOcrText : String :=
  "\n    OLD TOM DISTILLERY\n    Est. 1878\n    Kentucky Straight Bourbon Whiskey\n    45% Alc./Vol. (90 Proof)\n    NET CONTENTS: 750 ML\n    GOVERNMENT WARNING: \n    (1) ACCORDING TO THE SURGEON GENERAL...\n"

example :
    (performVerification mockOcrText
      { brandName := some "Old Tom Distillery",
        productClass := some "Kentucky Straight Bourbon Whiskey",
        alcoholContent := AbvValue.num 45,
        netContents := some "750 mL" }).map VerificationReport.overall_match
      = some true := by decide

example :
    (performVerification mockOcrText
      { brandName := some "Old SAM Distillery",
        productClass := some "Kentucky Straight Bourbon Whiskey",
        alcoholContent := AbvValue.num 45,
        netContents := some "750 mL" }).map (fun r =>
          (r.overall_match, r.discrepancies.map FieldCheck.status))
      = some (false, ["Not Found/Mismatch", "Match", "Match", "Match", "Match"]) := by
  decide

example :
    (performVerification mockOcrText
      { brandName := some "OLD TOM DISTILLERY",
        productClass := some "Bourbon Whiskey",
        alcoholContent := AbvValue.num 45,
        netContents := some "750ML" }).map VerificationReport.overall_match
      = some true := by decide

example :
    (performVerification mockOcrText
      { brandName := some "Old Tom Distillery",
        productClass := some "Kentucky Straight Bourbon Whiskey",
        alcoholContent := AbvValue.num 45,
        netContents := some "750" }).map (fun r =>
          (r.overall_match, r.discrepancies.map FieldCheck.status))
      = some (false, ["Match", "Match", "Match", "Mismatch (Unit Missing)", "Match"]) := by
  decide

/-! ## Idempotence of the normalizer (towards C7)

The pipeline output is lower-cased, punctuation-free, has no two adjacent
whitespace characters, and is trimmed; each stage therefore fixes it. -/

theorem toLower_toLower (c : Char) : c.toLower.toLower = c.toLower := by
  unfold Char.toLower
  simp only [Char.toNat]
  by_cases h : c.val.toNat ≥ 65 ∧ c.val.toNat ≤ 90
  · rw [if_pos h]
    have ht : (Char.ofNat (c.val.toNat + 32)).val.toNat = c.val.toNat + 32 := by
      simp only [Char.ofNat]
      split
      · rfl
      · next hnot => exact absurd (Or.inl (by omega)) hnot
    rw [if_neg (by omega :
      ¬((Char.ofNat (c.val.toNat + 32)).val.toNat ≥ 65 ∧
        (Char.ofNat (c.val.toNat + 32)).val.toNat ≤ 90))]
  · rw [if_neg h, if_neg h]

/-- No two adjacent whitespace characters. -/
def okWs : List Char → Bool
  | [] => true
  | [_] => true
  | c1 :: c2 :: rest => !(isWs c1 && isWs c2) && okWs (c2 :: rest)

theorem okWs_cons (c : Char) (l : List Char) :
    okWs (c :: l) = (!(isWs c && l.head?.any isWs) && okWs l) := by
  cases l <;> simp [okWs]

theorem okWs_tail {c : Char} {l : List Char} (h : okWs (c :: l) = true) :
    okWs l = true := by
  rw [okWs_cons] at h
  exact (Bool.and_eq_true_iff.mp h).2

theorem collapseWs_head_any (l : List Char) :
    (collapseWs l).head?.any isWs = l.head?.any isWs := by
  induction l using collapseWs.induct with
  | case1 => rfl
  | case2 c => rfl
  | case3 c c2 r2 h1 h2 h3 ih =>
    simp only [collapseWs, h1, h2, h3, if_true]
    rw [ih]
    simp [h1, h2]
  | case4 c c2 r2 h1 h2 h3 ih =>
    simp [collapseWs, h1, h2, h3]
    decide
  | case5 c c2 r2 h1 h2 ih =>
    simp [collapseWs, h1, h2]
  | case6 c c2 r2 h1 ih =>
    simp [collapseWs, h1]

theorem okWs_collapseWs (l : List Char) : okWs (collapseWs l) = true := by
  induction l using collapseWs.induct with
  | case1 => rfl
  | case2 c => rfl
  | case3 c c2 rest2 h1 h2 h3 ih =>
    simpa [collapseWs, h1, h2, h3] using ih
  | case4 c c2 rest2 h1 h2 h3 ih =>
    simp only [collapseWs, h1, h2, if_true]
    rw [if_neg h3, okWs_cons, collapseWs_head_any]
    have h3' : Option.any isWs rest2.head? = false := by simpa using h3
    rw [h3', ih]
    simp
  | case5 c c2 rest2 h1 h2 ih =>
    have h2' : isWs c2 = false := by simpa using h2
    simp only [collapseWs, h1, h2', if_true, Bool.false_eq_true, if_false]
    rw [okWs_cons, collapseWs_head_any]
    simp [h2', ih]
  | case6 c c2 rest2 h1 ih =>
    have h1' : isWs c = false := by simpa using h1
    simp only [collapseWs, h1', Bool.false_eq_true, if_false]
    rw [okWs_cons, collapseWs_head_any]
    simp [h1', ih]

theorem collapseWs_of_okWs (l : List Char) (h : okWs l = true) :
    collapseWs l = l := by
  induction l using collapseWs.induct with
  | case1 => rfl
  | case2 c => rfl
  | case3 c c2 rest2 h1 h2 h3 ih =>
    exfalso
    rw [okWs_cons] at h
    simp [h1, h2] at h
  | case4 c c2 rest2 h1 h2 h3 ih =>
    exfalso
    rw [okWs_cons] at h
    simp [h1, h2] at h
  | case5 c c2 rest2 h1 h2 ih =>
    simp only [collapseWs, h1, h2, Bool.false_eq_true, if_false, if_true]
    rw [ih (okWs_tail h)]
  | case6 c c2 rest2 h1 ih =>
    simp only [collapseWs, h1, Bool.false_eq_true, if_false]
    rw [ih (okWs_tail h)]

theorem mem_collapseWs {c : Char} {l : List Char} (h : c ∈ collapseWs l) :
    c ∈ l ∨ c = ' ' := by
  induction l using collapseWs.induct with
  | case1 => simp [collapseWs] at h
  | case2 d => simp [collapseWs] at h; simp [h]
  | case3 d d2 r2 h1 h2 h3 ih =>
    simp only [collapseWs, h1, h2, h3, if_true] at h
    rcases ih h with h' | h'
    · exact Or.inl (List.mem_cons_of_mem _ h')
    · exact Or.inr h'
  | case4 d d2 r2 h1 h2 h3 ih =>
    simp only [collapseWs, h1, h2, h3, if_true, Bool.false_eq_true, if_false] at h
    rcases List.mem_cons.mp h with h' | h'
    · exact Or.inr h'
    · rcases ih h' with h'' | h''
      · exact Or.inl (by simp [h''])
      · exact Or.inr h''
  | case5 d d2 r2 h1 h2 ih =>
    simp only [collapseWs, h1, h2, Bool.false_eq_true, if_false, if_true] at h
    rcases List.mem_cons.mp h with h' | h'
    · exact Or.inl (by simp [h'])
    · rcases ih h' with h'' | h''
      · exact Or.inl (List.mem_cons_of_mem _ h'')
      · exact Or.inr h''
  | case6 d d2 r2 h1 ih =>
    simp only [collapseWs, h1, Bool.false_eq_true, if_false] at h
    rcases List.mem_cons.mp h with h' | h'
    · exact Or.inl (by simp [h'])
    · rcases ih h' with h'' | h''
      · exact Or.inl (List.mem_cons_of_mem _ h'')
      · exact Or.inr h''

theorem trimRight_cons (c : Char) (rest : List Char) :
    trimRight (c :: rest) =
      (match trimRight rest with
       | [] => if isWs c then [] else [c]
       | r => c :: r) := rfl

theorem trimRight_sublist (l : List Char) : List.Sublist (trimRight l) l := by
  induction l with
  | nil => exact List.Sublist.refl _
  | cons c rest ih =>
    rw [trimRight_cons]
    cases htr : trimRight rest with
    | nil =>
      by_cases hc : isWs c
      · simp [hc]
      · simp [hc]
    | cons d r2 =>
      rw [htr] at ih
      exact List.Sublist.cons₂ c ih

theorem trimRight_head? (l : List Char) (h : trimRight l ≠ []) :
    (trimRight l).head? = l.head? := by
  cases l with
  | nil => rfl
  | cons c rest =>
    rw [trimRight_cons] at h ⊢
    cases htr : trimRight rest with
    | nil =>
      rw [htr] at h
      by_cases hc : isWs c
      · exact absurd (by simp [hc]) h
      · simp [hc]
    | cons d r2 => rfl

theorem okWs_trimRight (l : List Char) (h : okWs l = true) :
    okWs (trimRight l) = true := by
  induction l with
  | nil => exact h
  | cons c rest ih =>
    rw [trimRight_cons]
    cases htr : trimRight rest with
    | nil => by_cases hc : isWs c <;> simp [hc, okWs]
    | cons d r2 =>
      have hok : okWs (d :: r2) = true := htr ▸ ih (okWs_tail h)
      have hh : (d :: r2).head? = rest.head? := by
        rw [← htr]
        exact trimRight_head? rest (by rw [htr]; simp)
      show okWs (c :: d :: r2) = true
      rw [okWs_cons, hh, hok]
      rw [okWs_cons] at h
      rcases Bool.and_eq_true_iff.mp h with ⟨h1, _⟩
      simpa using h1

theorem trimRight_trimRight (l : List Char) :
    trimRight (trimRight l) = trimRight l := by
  induction l with
  | nil => rfl
  | cons c rest ih =>
    rw [trimRight_cons]
    cases htr : trimRight rest with
    | nil =>
      by_cases hc : isWs c
      · simp [hc, trimRight]
      · simp [hc, trimRight]
    | cons d r2 =>
      rw [htr] at ih
      show trimRight (c :: d :: r2) = c :: d :: r2
      rw [trimRight_cons, ih]

theorem head?_dropWhile (p : Char → Bool) (l : List Char) {c : Char}
    (h : (l.dropWhile p).head? = some c) : p c = false := by
  induction l with
  | nil => simp [List.dropWhile] at h
  | cons d rest ih =>
    rw [List.dropWhile_cons] at h
    by_cases hp : p d
    · rw [if_pos hp] at h
      exact ih h
    · rw [if_neg hp] at h
      simp only [List.head?_cons, Option.some.injEq] at h
      rw [← h]
      exact Bool.eq_false_iff.mpr hp

theorem okWs_dropWhile (p : Char → Bool) (l : List Char) (h : okWs l = true) :
    okWs (l.dropWhile p) = true := by
  induction l with
  | nil => simpa using h
  | cons c rest ih =>
    rw [List.dropWhile_cons]
    by_cases hp : p c
    · rw [if_pos hp]
      exact ih (okWs_tail h)
    · rwa [if_neg hp]

theorem trimL_trimL (l : List Char) : trimL (trimL l) = trimL l := by
  unfold trimL
  cases htr : trimRight (l.dropWhile isWs) with
  | nil => rfl
  | cons d r2 =>
    have hh : (d :: r2).head? = (l.dropWhile isWs).head? := by
      rw [← htr]
      exact trimRight_head? _ (by rw [htr]; simp)
    have hd : isWs d = false := head?_dropWhile isWs l (by rw [← hh]; rfl)
    rw [List.dropWhile_cons, if_neg (by simp [hd])]
    have h2 := trimRight_trimRight (l.dropWhile isWs)
    rw [htr] at h2
    exact h2

theorem trimL_sublist (l : List Char) : List.Sublist (trimL l) l :=
  List.Sublist.trans (trimRight_sublist _) (List.dropWhile_sublist _)

theorem okWs_trimL (l : List Char) (h : okWs l = true) : okWs (trimL l) = true :=
  okWs_trimRight _ (okWs_dropWhile _ _ h)

/-- Every character of the pipeline output is lower-case-fixed and
non-punctuation, and the output has no adjacent whitespace and is trimmed;
hence the pipeline fixes its own output. -/
theorem normStr_idem (s : String) : normStr (normStr s) = normStr s := by
  unfold normStr
  apply congrArg String.mk
  set M : List Char := (s.data.map Char.toLower).filter (fun c => !isPunct c) with hM
  set L : List Char := trimL (collapseWs M) with hL
  have hmemL : ∀ c ∈ L, c ∈ M ∨ c = ' ' := by
    intro c hc
    exact mem_collapseWs (List.Sublist.subset (trimL_sublist _) hc)
  have hlower : ∀ c ∈ L, Char.toLower c = c := by
    intro c hc
    rcases hmemL c hc with hcm | hsp
    · rw [hM] at hcm
      rcases List.mem_map.mp (List.mem_of_mem_filter hcm) with ⟨a, _, ha⟩
      rw [← ha]
      exact toLower_toLower a
    · rw [hsp]; decide
  have hnp : ∀ c ∈ L, (!isPunct c) = true := by
    intro c hc
    rcases hmemL c hc with hcm | hsp
    · rw [hM] at hcm
      exact (List.mem_filter.mp hcm).2
    · rw [hsp]; decide
  have hmap : L.map Char.toLower = L := by
    conv_rhs => rw [← List.map_id L]
    exact List.map_congr_left hlower
  have hfilter : L.filter (fun c => !isPunct c) = L :=
    List.filter_eq_self.mpr hnp
  have hcoll : collapseWs L = L :=
    collapseWs_of_okWs _ (okWs_trimL _ (okWs_collapseWs M))
  have htrim : trimL L = L := by
    rw [hL]
    exact trimL_trimL _
  show trimL (collapseWs ((String.mk L).data.map Char.toLower |>.filter
      (fun c => !isPunct c))) = L
  show trimL (collapseWs (L.map Char.toLower |>.filter (fun c => !isPunct c))) = L
  rw [hmap, hfilter, hcoll, htrim]

/-! ## Helper lemmas about the checks -/

theorem statusOf_eq_match (b : Bool) : statusOf b = "Match" ↔ b = true := by
  cases b <;> decide

theorem beq_nf_match : (("Not Found/Mismatch" : String) == "Match") = false := by decide

theorem beq_mum_match : (("Mismatch (Unit Missing)" : String) == "Match") = false := by decide

/-- The Net Contents check fails (sets `overallMatch` false) exactly when it
is mandatory and did not produce a `Match`. -/
theorem netContentsCheck_snd (ncRaw normalizedText : String) :
    (netContentsCheck ncRaw normalizedText).2 =
      (netIsMandatory ncRaw &&
        !((netContentsCheck ncRaw normalizedText).1 == "Match")) := by
  unfold netContentsCheck
  cases hp : findNCParse ncRaw.data with
  | some p =>
    obtain ⟨volume, unitLetters⟩ := p
    simp only []
    split
    · simp
    · simp [beq_nf_match]
  | none =>
    by_cases hm : netIsMandatory ncRaw
    · cases hf : firstNum (normalize (some ncRaw)).data with
      | some v =>
        by_cases hs : strIncludes normalizedText v = true
        · simp [hm, hs, beq_mum_match]
        · simp [hm, hs, beq_nf_match]
      | none => simp [hm, beq_nf_match]
    · simp [hm]

/-- The two possible Net Contents status strings besides `Match`. -/
theorem netContentsCheck_fst_cases (ncRaw normalizedText : String) :
    (netContentsCheck ncRaw normalizedText).1 = "Match" ∨
    (netContentsCheck ncRaw normalizedText).1 = "Not Found/Mismatch" ∨
    (netContentsCheck ncRaw normalizedText).1 = "Mismatch (Unit Missing)" := by
  unfold netContentsCheck
  cases hp : findNCParse ncRaw.data with
  | some p =>
    obtain ⟨volume, unitLetters⟩ := p
    simp only []
    split
    · simp
    · simp
  | none =>
    by_cases hm : netIsMandatory ncRaw
    · cases hf : firstNum (normalize (some ncRaw)).data with
      | some v =>
        by_cases hs : strIncludes normalizedText v = true
        · simp [hm, hs]
        · simp [hm, hs]
      | none => simp [hm]
    · simp [hm]

/-- The value of `performVerification` on a present `netContents` field, written out. -/
theorem performVerification_some (t : String) (bn pc : Option String)
    (ac : AbvValue) (nc : String) :
    performVerification t
      { brandName := bn, productClass := pc, alcoholContent := ac,
        netContents := some nc } =
      some {
        overall_match :=
          substringPass (normalize (some (bn.getD ""))) (normalize (some t)) &&
          substringPass (normalize (some (pc.getD ""))) (normalize (some t)) &&
          abvPass (abvString ac) t &&
          !(netContentsCheck nc (normalize (some t))).2 &&
          strIncludes (normalize (some t)) "government warning"
        discrepancies := [
          { field := "Brand Name",
            status := statusOf
              (substringPass (normalize (some (bn.getD ""))) (normalize (some t))),
            expected := bn },
          { field := "Product Class/Type",
            status := statusOf
              (substringPass (normalize (some (pc.getD ""))) (normalize (some t))),
            expected := pc },
          { field := "Alcohol Content",
            status := statusOf (abvPass (abvString ac) t),
            expected := some (jsString ac ++ "% (within tolerance)") },
          { field := "Net Contents",
            status := (netContentsCheck nc (normalize (some t))).1,
            expected := some (nc ++ (if netIsMandatory nc then "" else " (Optional)")) },
          { field := "Government Warning",
            status := statusOf (strIncludes (normalize (some t)) "government warning"),
            expected := some "Phrase \"GOVERNMENT WARNING\" present" } ] } := rfl

/-! ## The claims -/

/-- C7: `normalize` is idempotent (`normalize(normalize(s)) == normalize(s)`
for every string `s`), and an empty or absent input yields the empty string
rather than an error. -/
theorem normalize_idempotent_and_empty :
    (∀ s : String, normalize (some (normalize (some s))) = normalize (some s)) ∧
    normalize (some "") = "" ∧ normalize none = "" := by
  refine ⟨?_, rfl, rfl⟩
  intro s
  show (if normalize (some s) = "" then "" else normStr (normalize (some s)))
      = normalize (some s)
  by_cases h2 : normalize (some s) = ""
  · rw [if_pos h2, h2]
  · rw [if_neg h2]
    by_cases h : s = ""
    · exact absurd (by simp [normalize, h]) h2
    · have hs : normalize (some s) = normStr s := by simp [normalize, h]
      rw [hs, normStr_idem]

/-- C2 (code bug): `performVerification` is not total.  When the
`netContents` form field is absent, line 93 dereferences
`formInput.netContents.match(...)` without the `|| ''` guard used on line
51, so the call raises a TypeError instead of returning a report; the model
returns `none` there. -/
theorem performVerification_throws_on_absent_netContents :
    performVerification "OLD TOM DISTILLERY 45% Alc. 750 ML GOVERNMENT WARNING"
      { brandName := some "Old Tom Distillery",
        productClass := some "Whiskey",
        alcoholContent := AbvValue.num 45,
        netContents := none } = none := rfl

/-- C1 (code bug): in the Tier-1 net-contents search the alternation of
unit spellings is spliced into `` `\b${volume}\s*${unitPattern}\b` ``
without grouping, so `"ml"`, `"milliliter"` and `"millilitres\b"` are
whole-pattern alternatives that match without the volume.  Here the
declared value is "750 mL" and the haystack contains no "750" at all, yet
the Net Contents row reports `Match`. -/
theorem netContents_unit_only_match_bug :
    (performVerification "only ml here"
      { brandName := some "b", productClass := some "c",
        alcoholContent := AbvValue.num 45,
        netContents := some "750 mL" }).map
      (fun r => (r.discrepancies.map FieldCheck.status,
                 strIncludes (normalize (some "only ml here")) "750")) =
      some (["Not Found/Mismatch", "Not Found/Mismatch", "Not Found/Mismatch",
             "Match", "Not Found/Mismatch"], false) := by
  decide

/-- C9: every report has exactly five rows, one per field, in the fixed
order Brand Name, Product Class/Type, Alcohol Content, Net Contents,
Government Warning. -/
theorem report_has_five_rows_in_fixed_order (t : String) (fi : FormInput)
    (r : VerificationReport) (h : performVerification t fi = some r) :
    r.discrepancies.map FieldCheck.field =
      ["Brand Name", "Product Class/Type", "Alcohol Content", "Net Contents",
       "Government Warning"] := by
  rcases fi with ⟨bn, pc, ac, nc⟩
  cases nc with
  | none => exact Option.noConfusion h
  | some ncRaw =>
    rw [performVerification_some] at h
    cases Option.some.inj h
    rfl

theorem report_has_five_rows_in_fixed_order_witness :
    ∃ r, performVerification "some label text"
      { brandName := some "a", productClass := none,
        alcoholContent := AbvValue.absent, netContents := some "750" } = some r ∧
      r.discrepancies.map FieldCheck.field =
        ["Brand Name", "Product Class/Type", "Alcohol Content", "Net Contents",
         "Government Warning"] := by
  refine ⟨_, rfl, ?_⟩
  exact report_has_five_rows_in_fixed_order "some label text"
    { brandName := some "a", productClass := none,
      alcoholContent := AbvValue.absent, netContents := some "750" } _ rfl

/-- C10: the Government Warning row ignores the declared fields entirely:
its status agrees across any two form inputs for which a report exists, and
it is `Match` exactly when the normalized extracted text contains
"government warning". -/
theorem government_warning_independent_of_form (t : String)
    (fi1 fi2 : FormInput) (r1 r2 : VerificationReport)
    (h1 : performVerification t fi1 = some r1)
    (h2 : performVerification t fi2 = some r2) :
    (r1.discrepancies[4]?).map FieldCheck.status =
      (r2.discrepancies[4]?).map FieldCheck.status ∧
    ((r1.discrepancies[4]?).map FieldCheck.status = some "Match" ↔
      strIncludes (normalize (some t)) "government warning" = true) := by
  rcases fi1 with ⟨bn1, pc1, ac1, nc1⟩
  rcases fi2 with ⟨bn2, pc2, ac2, nc2⟩
  cases nc1 with
  | none => exact Option.noConfusion h1
  | some ncRaw1 =>
    cases nc2 with
    | none => exact Option.noConfusion h2
    | some ncRaw2 =>
      rw [performVerification_some] at h1 h2
      cases Option.some.inj h1
      cases Option.some.inj h2
      refine ⟨rfl, ?_⟩
      show some (statusOf (strIncludes (normalize (some t)) "government warning"))
          = some "Match" ↔ _
      rw [Option.some_inj, statusOf_eq_match]

theorem government_warning_independent_of_form_witness :
    ∃ r1 r2,
      performVerification "fine print GOVERNMENT WARNING here"
        { brandName := some "a", productClass := some "b",
          alcoholContent := AbvValue.num 45, netContents := some "750 mL" } = some r1 ∧
      performVerification "fine print GOVERNMENT WARNING here"
        { brandName := none, productClass := none,
          alcoholContent := AbvValue.absent, netContents := some "" } = some r2 ∧
      ((r1.discrepancies[4]?).map FieldCheck.status =
        (r2.discrepancies[4]?).map FieldCheck.status ∧
      ((r1.discrepancies[4]?).map FieldCheck.status = some "Match" ↔
        strIncludes (normalize (some "fine print GOVERNMENT WARNING here"))
          "government warning" = true)) := by
  refine ⟨_, _, rfl, rfl, ?_⟩
  exact government_warning_independent_of_form "fine print GOVERNMENT WARNING here"
    { brandName := some "a", productClass := some "b",
      alcoholContent := AbvValue.num 45, netContents := some "750 mL" }
    { brandName := none, productClass := none,
      alcoholContent := AbvValue.absent, netContents := some "" } _ _ rfl rfl

/-- C6: a declared alcohol content of `0` (or an absent field, which
defaults to `0`) makes the Alcohol Content row `Not Found/Mismatch`
unconditionally and forces `overall_match = false`. -/
theorem abv_zero_never_matches (t : String) (fi : FormInput)
    (r : VerificationReport)
    (habv : fi.alcoholContent = AbvValue.num 0 ∨ fi.alcoholContent = AbvValue.absent)
    (h : performVerification t fi = some r) :
    (r.discrepancies[2]?).map FieldCheck.status = some "Not Found/Mismatch" ∧
      r.overall_match = false := by
  rcases fi with ⟨bn, pc, ac, nc⟩
  cases nc with
  | none => exact Option.noConfusion h
  | some ncRaw =>
    rw [performVerification_some] at h
    cases Option.some.inj h
    have hzero : abvString ac = "0" := by
      rcases habv with h0 | h0
      · rw [show ac = AbvValue.num 0 from h0]; decide
      · rw [show ac = AbvValue.absent from h0]; decide
    have hpass : abvPass (abvString ac) t = false := by
      rw [hzero]
      simp [abvPass]
    constructor
    · show some (statusOf (abvPass (abvString ac) t)) = some "Not Found/Mismatch"
      rw [hpass]
      rfl
    · show (_ && _ && abvPass (abvString ac) t && _ && _) = false
      rw [hpass]
      simp

theorem abv_zero_never_matches_witness :
    (AbvValue.num 0 = AbvValue.num 0 ∨ AbvValue.num 0 = AbvValue.absent) ∧
    ∃ r, performVerification "label says 0% somewhere GOVERNMENT WARNING"
      { brandName := some "label", productClass := some "says",
        alcoholContent := AbvValue.num 0, netContents := some "" } = some r ∧
      ((r.discrepancies[2]?).map FieldCheck.status = some "Not Found/Mismatch" ∧
        r.overall_match = false) := by
  refine ⟨Or.inl rfl, _, rfl, ?_⟩
  exact abv_zero_never_matches "label says 0% somewhere GOVERNMENT WARNING"
    { brandName := some "label", productClass := some "says",
      alcoholContent := AbvValue.num 0, netContents := some "" } _ (Or.inl rfl) rfl

theorem netIsMandatory_iff (s : String) :
    netIsMandatory s = true ↔ 0 < (normalize (some s)).length := by
  simp [netIsMandatory]

/-- The shape of `overallMatch` after `netContentsCheck_snd`: the
conjunction of the four simple passes and, when mandatory, a net `Match`. -/
theorem overall_core (b1 b2 b3 b5 m : Bool) (st : String) :
    (b1 && b2 && b3 && !(m && !(st == "Match")) && b5) = true ↔
      (b1 = true ∧ b2 = true ∧ b3 = true ∧ b5 = true ∧
       (m = true → st = "Match")) := by
  constructor
  · intro h
    rw [Bool.and_eq_true] at h
    obtain ⟨h4, hw⟩ := h
    rw [Bool.and_eq_true] at h4
    obtain ⟨h3, hn⟩ := h4
    rw [Bool.and_eq_true] at h3
    obtain ⟨h2, ha⟩ := h3
    rw [Bool.and_eq_true] at h2
    obtain ⟨hb, hc⟩ := h2
    refine ⟨hb, hc, ha, hw, ?_⟩
    intro hm
    rw [hm] at hn
    simpa using hn
  · rintro ⟨hb, hc, ha, hw, hn⟩
    rw [hb, hc, ha, hw]
    cases hm : m
    · simp
    · simp [hn hm]

/-- C8: Brand Name and Product Class rows are plain substring checks: the
row is `Match` exactly when the declared value normalizes to a non-empty
string that occurs in the normalized haystack, and any non-`Match` outcome
is reported as `Not Found/Mismatch` and forces `overall_match = false`
(in particular an empty or absent declared value can never match). -/
theorem brand_and_class_substring_check (t : String) (fi : FormInput)
    (r : VerificationReport) (h : performVerification t fi = some r) :
    (((r.discrepancies[0]?).map FieldCheck.status = some "Match" ↔
        (0 < (normalize (some (fi.brandName.getD ""))).length ∧
         strIncludes (normalize (some t))
           (normalize (some (fi.brandName.getD ""))) = true)) ∧
     ((r.discrepancies[0]?).map FieldCheck.status ≠ some "Match" →
        (r.discrepancies[0]?).map FieldCheck.status = some "Not Found/Mismatch" ∧
        r.overall_match = false)) ∧
    (((r.discrepancies[1]?).map FieldCheck.status = some "Match" ↔
        (0 < (normalize (some (fi.productClass.getD ""))).length ∧
         strIncludes (normalize (some t))
           (normalize (some (fi.productClass.getD ""))) = true)) ∧
     ((r.discrepancies[1]?).map FieldCheck.status ≠ some "Match" →
        (r.discrepancies[1]?).map FieldCheck.status = some "Not Found/Mismatch" ∧
        r.overall_match = false)) := by
  rcases fi with ⟨bn, pc, ac, nc⟩
  cases nc with
  | none => exact Option.noConfusion h
  | some ncRaw =>
    rw [performVerification_some] at h
    cases Option.some.inj h
    constructor
    · constructor
      · show some (statusOf (substringPass (normalize (some (bn.getD "")))
            (normalize (some t)))) = some "Match" ↔ _
        rw [Option.some_inj, statusOf_eq_match, substringPass,
          Bool.and_eq_true, decide_eq_true_eq]
      · intro hne
        have hb : substringPass (normalize (some (bn.getD "")))
            (normalize (some t)) = false := by
          cases hx : substringPass (normalize (some (bn.getD ""))) (normalize (some t))
          · rfl
          · exact absurd (by
              show some (statusOf (substringPass (normalize (some (bn.getD "")))
                (normalize (some t)))) = some "Match"
              rw [hx]
              rfl) hne
        constructor
        · show some (statusOf (substringPass (normalize (some (bn.getD "")))
              (normalize (some t)))) = some "Not Found/Mismatch"
          rw [hb]
          rfl
        · show (substringPass (normalize (some (bn.getD ""))) (normalize (some t)) &&
              substringPass (normalize (some (pc.getD ""))) (normalize (some t)) &&
              abvPass (abvString ac) t &&
              !(netContentsCheck ncRaw (normalize (some t))).2 &&
              strIncludes (normalize (some t)) "government warning") = false
          rw [hb]
          simp
    · constructor
      · show some (statusOf (substringPass (normalize (some (pc.getD "")))
            (normalize (some t)))) = some "Match" ↔ _
        rw [Option.some_inj, statusOf_eq_match, substringPass,
          Bool.and_eq_true, decide_eq_true_eq]
      · intro hne
        have hc : substringPass (normalize (some (pc.getD "")))
            (normalize (some t)) = false := by
          cases hx : substringPass (normalize (some (pc.getD ""))) (normalize (some t))
          · rfl
          · exact absurd (by
              show some (statusOf (substringPass (normalize (some (pc.getD "")))
                (normalize (some t)))) = some "Match"
              rw [hx]
              rfl) hne
        constructor
        · show some (statusOf (substringPass (normalize (some (pc.getD "")))
              (normalize (some t)))) = some "Not Found/Mismatch"
          rw [hc]
          rfl
        · show (substringPass (normalize (some (bn.getD ""))) (normalize (some t)) &&
              substringPass (normalize (some (pc.getD ""))) (normalize (some t)) &&
              abvPass (abvString ac) t &&
              !(netContentsCheck ncRaw (normalize (some t))).2 &&
              strIncludes (normalize (some t)) "government warning") = false
          rw [hc]
          simp

theorem brand_and_class_substring_check_witness :
    ∃ r, performVerification "OLD TOM bourbon 45% 750 ml GOVERNMENT WARNING"
      { brandName := some "Old Tom", productClass := some "gin",
        alcoholContent := AbvValue.num 45, netContents := some "750 ml" } = some r ∧
      ((((r.discrepancies[0]?).map FieldCheck.status = some "Match" ↔
          (0 < (normalize (some ((some "Old Tom").getD ""))).length ∧
           strIncludes (normalize (some "OLD TOM bourbon 45% 750 ml GOVERNMENT WARNING"))
             (normalize (some ((some "Old Tom").getD ""))) = true)) ∧
        ((r.discrepancies[0]?).map FieldCheck.status ≠ some "Match" →
          (r.discrepancies[0]?).map FieldCheck.status = some "Not Found/Mismatch" ∧
          r.overall_match = false)) ∧
       (((r.discrepancies[1]?).map FieldCheck.status = some "Match" ↔
          (0 < (normalize (some ((some "gin").getD ""))).length ∧
           strIncludes (normalize (some "OLD TOM bourbon 45% 750 ml GOVERNMENT WARNING"))
             (normalize (some ((some "gin").getD ""))) = true)) ∧
        ((r.discrepancies[1]?).map FieldCheck.status ≠ some "Match" →
          (r.discrepancies[1]?).map FieldCheck.status = some "Not Found/Mismatch" ∧
          r.overall_match = false))) := by
  refine ⟨_, rfl, ?_⟩
  exact brand_and_class_substring_check "OLD TOM bourbon 45% 750 ml GOVERNMENT WARNING"
    { brandName := some "Old Tom", productClass := some "gin",
      alcoholContent := AbvValue.num 45, netContents := some "750 ml" } _ rfl

/-- C5: the Tier-2 fallback.  When the structured number-plus-letters parse
of the declared net contents fails and the check is mandatory, the status
is `Mismatch (Unit Missing)` exactly when the first numeric substring of
the normalized declared value occurs in the normalized haystack, and
`Not Found/Mismatch` otherwise; in both branches `overall_match` is
false. -/
theorem netContents_tier2_fallback (t : String) (fi : FormInput)
    (r : VerificationReport) (nc : String)
    (hnc : fi.netContents = some nc)
    (hparse : findNCParse nc.data = none)
    (hmand : netIsMandatory nc = true)
    (h : performVerification t fi = some r) :
    ((r.discrepancies[3]?).map FieldCheck.status =
      some (if (firstNum (normalize (some nc)).data).any
              (fun v => strIncludes (normalize (some t)) v) = true
            then "Mismatch (Unit Missing)" else "Not Found/Mismatch")) ∧
    r.overall_match = false := by
  rcases fi with ⟨bn, pc, ac, nco⟩
  cases nco with
  | none => exact Option.noConfusion h
  | some ncRaw =>
    have hnc' : ncRaw = nc := by
      have := hnc
      simp only [Option.some.injEq] at this
      exact this
    subst hnc'
    rw [performVerification_some] at h
    cases Option.some.inj h
    have hnet : netContentsCheck ncRaw (normalize (some t)) =
        (if (firstNum (normalize (some ncRaw)).data).any
            (fun v => strIncludes (normalize (some t)) v) = true
         then "Mismatch (Unit Missing)" else "Not Found/Mismatch", true) := by
      simp only [netContentsCheck, hparse, hmand, if_true]
      cases hf : firstNum (normalize (some ncRaw)).data with
      | some v =>
        by_cases hs : strIncludes (normalize (some t)) v = true
        · simp [hs]
        · simp [hs]
      | none => simp
    constructor
    · show some (netContentsCheck ncRaw (normalize (some t))).1 = some _
      rw [hnet]
    · show (substringPass (normalize (some (bn.getD ""))) (normalize (some t)) &&
          substringPass (normalize (some (pc.getD ""))) (normalize (some t)) &&
          abvPass (abvString ac) t &&
          !(netContentsCheck ncRaw (normalize (some t))).2 &&
          strIncludes (normalize (some t)) "government warning") = false
      rw [hnet]
      simp

theorem netContents_tier2_fallback_witness :
    (findNCParse "750".data = none) ∧ (netIsMandatory "750" = true) ∧
    ∃ r, performVerification "haystack has 750 ml"
      { brandName := some "x", productClass := some "y",
        alcoholContent := AbvValue.num 45, netContents := some "750" } = some r ∧
      (((r.discrepancies[3]?).map FieldCheck.status =
        some (if (firstNum (normalize (some "750")).data).any
                (fun v => strIncludes (normalize (some "haystack has 750 ml")) v) = true
              then "Mismatch (Unit Missing)" else "Not Found/Mismatch")) ∧
      r.overall_match = false) := by
  refine ⟨by decide, by decide, _, rfl, ?_⟩
  exact netContents_tier2_fallback "haystack has 750 ml"
    { brandName := some "x", productClass := some "y",
      alcoholContent := AbvValue.num 45, netContents := some "750" } _ "750"
    rfl (by decide) (by decide) rfl

/-- C4: `overall_match` is true exactly when every mandatory row is a
`Match`: the Brand Name, Product Class, Alcohol Content and Government
Warning rows always count, and the Net Contents row counts exactly when the
declared net contents normalizes to a non-empty string. -/
theorem overallMatch_iff_mandatory_rows_match (t : String) (fi : FormInput)
    (r : VerificationReport) (h : performVerification t fi = some r) :
    (r.overall_match = true ↔
      ((∀ fc ∈ r.discrepancies, fc.field ≠ "Net Contents" → fc.status = "Match") ∧
       (0 < (normalize fi.netContents).length →
         ∀ fc ∈ r.discrepancies, fc.field = "Net Contents" → fc.status = "Match"))) := by
  rcases fi with ⟨bn, pc, ac, nc⟩
  cases nc with
  | none => exact Option.noConfusion h
  | some ncRaw =>
    rw [performVerification_some] at h
    cases Option.some.inj h
    show (substringPass (normalize (some (bn.getD ""))) (normalize (some t)) &&
        substringPass (normalize (some (pc.getD ""))) (normalize (some t)) &&
        abvPass (abvString ac) t &&
        !(netContentsCheck ncRaw (normalize (some t))).2 &&
        strIncludes (normalize (some t)) "government warning") = true ↔ _
    rw [netContentsCheck_snd, overall_core]
    constructor
    · rintro ⟨hb, hc, ha, hw, hn⟩
      constructor
      · intro fc hfc hne
        simp only [List.mem_cons, List.not_mem_nil, or_false] at hfc
        rcases hfc with rfl | rfl | rfl | rfl | rfl
        · exact (statusOf_eq_match _).mpr hb
        · exact (statusOf_eq_match _).mpr hc
        · exact (statusOf_eq_match _).mpr ha
        · exact absurd rfl hne
        · exact (statusOf_eq_match _).mpr hw
      · intro hm fc hfc hfield
        simp only [List.mem_cons, List.not_mem_nil, or_false] at hfc
        rcases hfc with rfl | rfl | rfl | rfl | rfl
        · exact absurd (show ("Brand Name" : String) = "Net Contents" from hfield)
            (by decide)
        · exact absurd (show ("Product Class/Type" : String) = "Net Contents" from hfield)
            (by decide)
        · exact absurd (show ("Alcohol Content" : String) = "Net Contents" from hfield)
            (by decide)
        · exact hn ((netIsMandatory_iff ncRaw).mpr hm)
        · exact absurd (show ("Government Warning" : String) = "Net Contents" from hfield)
            (by decide)
    · rintro ⟨hall, hnet⟩
      refine ⟨?_, ?_, ?_, ?_, ?_⟩
      · exact (statusOf_eq_match _).mp (hall
          { field := "Brand Name",
            status := statusOf (substringPass (normalize (some (bn.getD "")))
              (normalize (some t))), expected := bn } (by simp)
          (show ("Brand Name" : String) ≠ "Net Contents" by decide))
      · exact (statusOf_eq_match _).mp (hall
          { field := "Product Class/Type",
            status := statusOf (substringPass (normalize (some (pc.getD "")))
              (normalize (some t))), expected := pc } (by simp)
          (show ("Product Class/Type" : String) ≠ "Net Contents" by decide))
      · exact (statusOf_eq_match _).mp (hall
          { field := "Alcohol Content",
            status := statusOf (abvPass (abvString ac) t),
            expected := some (jsString ac ++ "% (within tolerance)") }
          (by simp)
          (show ("Alcohol Content" : String) ≠ "Net Contents" by decide))
      · exact (statusOf_eq_match _).mp (hall
          { field := "Government Warning",
            status := statusOf (strIncludes (normalize (some t)) "government warning"),
            expected := some "Phrase \"GOVERNMENT WARNING\" present" }
          (by simp)
          (show ("Government Warning" : String) ≠ "Net Contents" by decide))
      · intro hm
        exact hnet ((netIsMandatory_iff ncRaw).mp hm)
          { field := "Net Contents",
            status := (netContentsCheck ncRaw (normalize (some t))).1,
            expected := some (ncRaw ++
              (if netIsMandatory ncRaw then "" else " (Optional)")) }
          (by simp) rfl

theorem overallMatch_iff_mandatory_rows_match_witness :
    ∃ r, performVerification mockOcrText
      { brandName := some "Old Tom Distillery",
        productClass := some "Kentucky Straight Bourbon Whiskey",
        alcoholContent := AbvValue.num 45, netContents := some "750 mL" } = some r ∧
      (r.overall_match = true ↔
        ((∀ fc ∈ r.discrepancies, fc.field ≠ "Net Contents" → fc.status = "Match") ∧
         (0 < (normalize (some "750 mL")).length →
           ∀ fc ∈ r.discrepancies, fc.field = "Net Contents" → fc.status = "Match"))) := by
  refine ⟨_, rfl, ?_⟩
  exact overallMatch_iff_mandatory_rows_match mockOcrText
    { brandName := some "Old Tom Distillery",
      productClass := some "Kentucky Straight Bourbon Whiskey",
      alcoholContent := AbvValue.num 45, netContents := some "750 mL" } _ rfl

/-- C3 (counterexample): a full-success input whose declared net contents
is the empty string.  The Net Contents check is then optional: its row
reports `Not Found/Mismatch`, yet `overall_match` is true, so
"`overallMatch` iff every FieldCheck is `Match`" fails on the code. -/
theorem overall_true_with_nonmatch_row :
    ¬ (∀ r : VerificationReport,
        performVerification "Old Tom 45% bourbon government warning"
          { brandName := some "Old Tom", productClass := some "bourbon",
            alcoholContent := AbvValue.num 45, netContents := some "" } = some r →
        (r.overall_match = true ↔
          ∀ fc ∈ r.discrepancies, fc.status = "Match")) := by
  intro hclaim
  have h := hclaim _ rfl
  have hall := h.mp (by decide)
  exact absurd hall (by decide)

/-- C3 (amended): `overall_match` is true iff every FieldCheck row has
status `Match`, except that a Net Contents row whose declared value
normalizes to the empty string (the optional case) is exempt. -/
theorem overallMatch_iff_rows_match_except_optional_net (t : String)
    (fi : FormInput) (r : VerificationReport)
    (h : performVerification t fi = some r) :
    (r.overall_match = true ↔
      ∀ fc ∈ r.discrepancies, fc.status = "Match" ∨
        (fc.field = "Net Contents" ∧ (normalize fi.netContents).length = 0)) := by
  rcases fi with ⟨bn, pc, ac, nc⟩
  cases nc with
  | none => exact Option.noConfusion h
  | some ncRaw =>
    rw [performVerification_some] at h
    cases Option.some.inj h
    show (substringPass (normalize (some (bn.getD ""))) (normalize (some t)) &&
        substringPass (normalize (some (pc.getD ""))) (normalize (some t)) &&
        abvPass (abvString ac) t &&
        !(netContentsCheck ncRaw (normalize (some t))).2 &&
        strIncludes (normalize (some t)) "government warning") = true ↔ _
    rw [netContentsCheck_snd, overall_core]
    constructor
    · rintro ⟨hb, hc, ha, hw, hn⟩
      intro fc hfc
      simp only [List.mem_cons, List.not_mem_nil, or_false] at hfc
      rcases hfc with rfl | rfl | rfl | rfl | rfl
      · exact Or.inl ((statusOf_eq_match _).mpr hb)
      · exact Or.inl ((statusOf_eq_match _).mpr hc)
      · exact Or.inl ((statusOf_eq_match _).mpr ha)
      · cases hm : netIsMandatory ncRaw
        · refine Or.inr ⟨rfl, ?_⟩
          by_contra hne
          have hpos : 0 < (normalize (some ncRaw)).length := Nat.pos_of_ne_zero hne
          have hmt : netIsMandatory ncRaw = true := (netIsMandatory_iff ncRaw).mpr hpos
          rw [hmt] at hm
          exact Bool.noConfusion hm
        · exact Or.inl (hn hm)
      · exact Or.inl ((statusOf_eq_match _).mpr hw)
    · intro hall
      have hrow : ∀ b : Bool, ∀ e : Option String, ∀ f : String,
          f ≠ "Net Contents" →
          ({ field := f, status := statusOf b, expected := e } : FieldCheck) ∈
            ([{ field := "Brand Name",
                status := statusOf (substringPass (normalize (some (bn.getD "")))
                  (normalize (some t))), expected := bn },
              { field := "Product Class/Type",
                status := statusOf (substringPass (normalize (some (pc.getD "")))
                  (normalize (some t))), expected := pc },
              { field := "Alcohol Content",
                status := statusOf (abvPass (abvString ac) t),
                expected := some (jsString ac ++ "% (within tolerance)") },
              { field := "Net Contents",
                status := (netContentsCheck ncRaw (normalize (some t))).1,
                expected := some (ncRaw ++
                  (if netIsMandatory ncRaw then "" else " (Optional)")) },
              { field := "Government Warning",
                status := statusOf (strIncludes (normalize (some t))
                  "government warning"),
                expected := some "Phrase \"GOVERNMENT WARNING\" present" }] :
              List FieldCheck) →
          b = true := by
        intro b e f hne hmem
        rcases hall _ hmem with hst | ⟨hf, _⟩
        · exact (statusOf_eq_match _).mp hst
        · exact absurd hf hne
      refine ⟨?_, ?_, ?_, ?_, ?_⟩
      · exact hrow _ bn "Brand Name" (by decide) (by simp)
      · exact hrow _ pc "Product Class/Type" (by decide) (by simp)
      · exact hrow _ (some (jsString ac ++ "% (within tolerance)"))
          "Alcohol Content" (by decide) (by simp)
      · exact hrow _ (some "Phrase \"GOVERNMENT WARNING\" present")
          "Government Warning" (by decide) (by simp)
      · intro hm
        rcases hall _ (by simp :
            ({ field := "Net Contents",
               status := (netContentsCheck ncRaw (normalize (some t))).1,
               expected := some (ncRaw ++
                 (if netIsMandatory ncRaw then "" else " (Optional)")) } :
              FieldCheck) ∈ _) with hst | ⟨_, hlen⟩
        · exact hst
        · exfalso
          have hpos := (netIsMandatory_iff ncRaw).mp hm
          have hlen' : (normalize (some ncRaw)).length = 0 := hlen
          omega

theorem overallMatch_iff_rows_match_except_optional_net_witness :
    ∃ r, performVerification "Old Tom 45% bourbon government warning"
      { brandName := some "Old Tom", productClass := some "bourbon",
        alcoholContent := AbvValue.num 45, netContents := some "" } = some r ∧
      (r.overall_match = true ↔
        ∀ fc ∈ r.discrepancies, fc.status = "Match" ∨
          (fc.field = "Net Contents" ∧
            (normalize (some "")).length = 0)) := by
  refine ⟨_, rfl, ?_⟩
  exact overallMatch_iff_rows_match_except_optional_net
    "Old Tom 45% bourbon government warning"
    { brandName := some "Old Tom", productClass := some "bourbon",
      alcoholContent := AbvValue.num 45, netContents := some "" } _ rfl

end TTB
